import Mathlib

/-!
Verification of the psytrance step sequencer (`src/main.py`) against its
natural-language specification.

The embedding below translates the Python source into Lean:

* `SeqState` mirrors the mutable fields of `PsytranceSequencer` together with
  the pattern grid owned by `UIManager` (`self.pattern`, a 16 x 8 list of
  booleans indexed `pattern[step][track]`).
* Python floats are modelled as exact rationals (`ℚ`); the synthesized audio
  buffers, which use `numpy` trigonometric and exponential functions, are
  modelled over the reals (`ℝ`).
* Python list indexing (including negative-index wraparound and the
  `IndexError` raised for indices past the wraparound range) is modelled by
  `pyIdx`; operations that can raise (`IndexError`, `ZeroDivisionError`)
  return `Option`, with `none` standing for the raised exception.
-/

/-- The pattern grid type owned by `UIManager`: `pattern[step][track]`,
16 steps by 8 tracks of booleans. -/
abbrev Grid := List (List Bool)

/-- Source `UIManager.__init__`: `self.pattern = [[False for _ in range(grid_size[1])]
for _ in range(grid_size[0])]` with `grid_size = (16, 8)`. -/
def init_pattern : Grid := List.replicate 16 (List.replicate 8 false)

/-- Read one cell of the grid (out-of-range reads default to `false`; all uses
below are in range). -/
def cell (p : Grid) (step track : ℕ) : Bool := ((p[step]?.getD [])[track]?).getD false

/-- Python list index resolution for a list of length `n`: index `i` with
`0 ≤ i < n` is used as is, `-n ≤ i < 0` wraps to `i + n`, and anything else
raises `IndexError` (modelled as `none`). -/
def pyIdx (n : ℕ) (i : ℤ) : Option ℕ :=
  if 0 ≤ i ∧ i < (n : ℤ) then some i.toNat
  else if -(n : ℤ) ≤ i ∧ i < 0 then some (i + (n : ℤ)).toNat
  else none

/-- Source `UIManager.toggle_step(track, step)`:
`self.pattern[step][track] = not self.pattern[step][track]`.
There is no bounds check in the source; Python's own list indexing applies,
so negative indices wrap around and indices past the wraparound range raise
`IndexError` (modelled as `none`, leaving the grid unchanged). -/
def toggle_step (p : Grid) (track step : ℤ) : Option Grid :=
  match pyIdx p.length step with
  | none => none
  | some si =>
    match p[si]? with
    | none => none
    | some row =>
      match pyIdx row.length track with
      | none => none
      | some ti =>
        match row[ti]? with
        | none => none
        | some b => some (p.set si (row.set ti (!b)))

/-- The mutable state of `PsytranceSequencer` (plus the `UIManager` grid it
drives): `self.bpm`, `self.beat_duration`, `self.current_step`,
`self.is_playing`, `self.master_volume`, and `ui_manager.pattern`. -/
structure SeqState where
  bpm : ℤ
  beat_duration : ℚ
  current_step : ℕ
  is_playing : Bool
  master_volume : ℚ
  pattern : Grid
deriving DecidableEq, Repr

/-- Source `PsytranceSequencer.__init__`: `self.bpm = 145`,
`self.beat_duration = 60.0 / self.bpm / 4`, `self.current_step = 0`,
`self.is_playing = False`, `self.master_volume = 1.0`, and the all-false
`UIManager` grid. -/
def initState : SeqState :=
  { bpm := 145
    beat_duration := 60 / 145 / 4
    current_step := 0
    is_playing := false
    master_volume := 1
    pattern := init_pattern }

/-- Source `PsytranceSequencer.set_tempo(bpm)`: `self.bpm = bpm;
self.beat_duration = 60.0 / bpm / 4`.  The source performs no range
validation; `bpm = 0` raises `ZeroDivisionError` (modelled as `none`). -/
def set_tempo (s : SeqState) (bpm : ℤ) : Option SeqState :=
  if bpm = 0 then none
  else some { s with bpm := bpm, beat_duration := 60 / (bpm : ℚ) / 4 }

/-- Source `PsytranceSequencer.set_volume(volume)`:
`self.master_volume = max(0.0, min(1.0, volume))`. -/
def set_volume (s : SeqState) (volume : ℚ) : SeqState :=
  { s with master_volume := max 0 (min 1 volume) }

/-- Source `PsytranceSequencer.toggle_playback`: `self.is_playing = not self.is_playing`
(the playhead-clearing UI call is not part of the modelled state). -/
def toggle_playback (s : SeqState) : SeqState :=
  { s with is_playing := !s.is_playing }

/-- Source `PsytranceSequencer.clear_pattern`: `self.ui_manager.clear_pattern()`
(which rebuilds the all-false grid) followed by `self.current_step = 0`. -/
def clear_pattern (s : SeqState) : SeqState :=
  { s with pattern := init_pattern, current_step := 0 }

/-- One iteration of `PsytranceSequencer.sequencer_loop`: when playing, the
sounds of the current step are dispatched (not part of the modelled state),
then `self.current_step = (self.current_step + 1) % 16`; when stopped, the
iteration only sleeps. -/
def tick (s : SeqState) : SeqState :=
  if s.is_playing then { s with current_step := (s.current_step + 1) % 16 } else s

/-- Runs `n` consecutive iterations of the sequencer loop. -/
def run_ticks : ℕ → SeqState → SeqState
  | 0, s => s
  | n + 1, s => run_ticks n (tick s)

/-- The operations that mutate the sequencer state: a loop iteration, the
play/stop toggle, the clear button, a tempo request, a volume request, and a
grid-cell toggle. -/
inductive SeqOp where
  | tick
  | togglePlayback
  | clearPattern
  | setTempo (bpm : ℤ)
  | setVolume (v : ℚ)
  | toggleStep (track step : ℤ)
deriving DecidableEq, Repr

/-- Apply one operation (`none` models an uncaught Python exception). -/
def apply_op (s : SeqState) : SeqOp → Option SeqState
  | .tick => some (tick s)
  | .togglePlayback => some (toggle_playback s)
  | .clearPattern => some (clear_pattern s)
  | .setTempo b => set_tempo s b
  | .setVolume v => some (set_volume s v)
  | .toggleStep track step => (toggle_step s.pattern track step).map fun p => { s with pattern := p }

/-- Run a list of operations from a state. -/
def run (s : SeqState) : List SeqOp → Option SeqState
  | [] => some s
  | op :: ops => (apply_op s op).bind fun s2 => run s2 ops

/-- Source `AudioManager.play_sound`'s volume gain: `scaled_volume = (volume ** 2) * 1.5`. -/
def volume_gain : ℚ := 3 / 2

/-- Source `AudioManager.play_sound(track_id, volume)`: if the track has a loaded
sound, the volume handed to the pygame sink is
`min((volume ** 2) * 1.5, 1.0)`; otherwise nothing is played (`none`). -/
def play_sound (loaded : List String) (track_id : String) (volume : ℚ) : Option ℚ :=
  if track_id ∈ loaded then some (min (volume ^ 2 * volume_gain) 1) else none

theorem init_sanity : initState.beat_duration = 3 / 29 ∧ cell init_pattern 0 0 = false := by
  constructor
  · norm_num [initState]
  · decide

theorem tick_master_volume (s : SeqState) : (tick s).master_volume = s.master_volume := by
  unfold tick; split <;> rfl

theorem tick_is_playing (s : SeqState) : (tick s).is_playing = s.is_playing := by
  unfold tick; split <;> rfl

theorem tick_step_of_playing (s : SeqState) (h : s.is_playing = true) :
    (tick s).current_step = (s.current_step + 1) % 16 := by
  simp [tick, h]

theorem set_tempo_eq (s : SeqState) (b : ℤ) (hb : b ≠ 0) :
    set_tempo s b = some { s with bpm := b, beat_duration := 60 / (b : ℚ) / 4 } := by
  simp [set_tempo, hb]

theorem apply_op_step_lt (s : SeqState) (op : SeqOp) (s' : SeqState)
    (hs : s.current_step < 16) (h : apply_op s op = some s') : s'.current_step < 16 := by
  cases op with
  | tick =>
    simp only [apply_op, Option.some.injEq] at h
    subst h
    unfold tick
    split
    · exact Nat.mod_lt _ (by norm_num)
    · exact hs
  | togglePlayback => simp only [apply_op, Option.some.injEq] at h; subst h; exact hs
  | clearPattern =>
    simp only [apply_op, Option.some.injEq] at h; subst h; simp [clear_pattern]
  | setTempo b =>
    simp only [apply_op, set_tempo] at h
    split at h
    · exact absurd h (by simp)
    · simp only [Option.some.injEq] at h; subst h; exact hs
  | setVolume v => simp only [apply_op, Option.some.injEq] at h; subst h; exact hs
  | toggleStep track step =>
    simp only [apply_op, Option.map_eq_some'] at h
    obtain ⟨p, -, rfl⟩ := h
    exact hs

theorem apply_op_volume_unit (s : SeqState) (op : SeqOp) (s' : SeqState)
    (hs : 0 ≤ s.master_volume ∧ s.master_volume ≤ 1) (h : apply_op s op = some s') :
    0 ≤ s'.master_volume ∧ s'.master_volume ≤ 1 := by
  cases op with
  | tick =>
    simp only [apply_op, Option.some.injEq] at h
    subst h
    rw [tick_master_volume]
    exact hs
  | togglePlayback => simp only [apply_op, Option.some.injEq] at h; subst h; exact hs
  | clearPattern => simp only [apply_op, Option.some.injEq] at h; subst h; exact hs
  | setTempo b =>
    simp only [apply_op, set_tempo] at h
    split at h
    · exact absurd h (by simp)
    · simp only [Option.some.injEq] at h; subst h; exact hs
  | setVolume v =>
    simp only [apply_op, Option.some.injEq] at h
    subst h
    refine ⟨le_max_left 0 _, max_le (by norm_num) (min_le_left 1 v)⟩
  | toggleStep track step =>
    simp only [apply_op, Option.map_eq_some'] at h
    obtain ⟨p, -, rfl⟩ := h
    exact hs

theorem run_preserves (P : SeqState → Prop)
    (hP : ∀ s op s', P s → apply_op s op = some s' → P s') :
    ∀ (ops : List SeqOp) (s s' : SeqState), P s → run s ops = some s' → P s'
  | [], s, s', hs, h => by
    simp only [run, Option.some.injEq] at h
    exact h ▸ hs
  | op :: ops, s, s', hs, h => by
    simp only [run] at h
    rcases Option.bind_eq_some.mp h with ⟨s2, h1, h2⟩
    exact run_preserves P hP ops s2 s' (hP s op s2 hs h1) h2

theorem run_ticks_playing :
    ∀ (n : ℕ) (s : SeqState), s.is_playing = true → s.current_step < 16 →
      (run_ticks n s).current_step = (s.current_step + n) % 16
  | 0, s, _, hlt => by
    simp [run_ticks, Nat.mod_eq_of_lt hlt]
  | n + 1, s, hp, hlt => by
    rw [run_ticks]
    have h1 := run_ticks_playing n (tick s) (by rw [tick_is_playing]; exact hp)
      (by rw [tick_step_of_playing s hp]; exact Nat.mod_lt _ (by norm_num))
    rw [h1, tick_step_of_playing s hp]
    omega

/-- C1 counterexample: requesting `bpm = 500` (outside [60,200]) is NOT
rejected by `set_tempo`: the stored bpm becomes 500 and `beat_duration`
becomes `60/500/4 = 3/100`, changed from the prior valid values `145` and
`3/29`. -/
theorem set_tempo_bpm500_cex :
    (set_tempo initState 500).map SeqState.bpm = some 500 ∧
    (set_tempo initState 500).map SeqState.beat_duration = some (3/100) ∧
    initState.bpm = 145 ∧ initState.beat_duration = 3/29 ∧ ((3 : ℚ)/100) ≠ 3/29 := by
  rw [set_tempo_eq initState 500 (by norm_num)]
  refine ⟨rfl, ?_, rfl, ?_, by norm_num⟩
  · simp only [Option.map_some']
    norm_num
  · norm_num [initState]

/-- C1 (amended): `set_tempo` performs no range validation at all: for every
nonzero integer bpm (in particular the out-of-range `bpm = 500`) it stores the
requested bpm and recomputes `beat_duration = 60/bpm/4` without crashing;
only `bpm = 0` crashes (`ZeroDivisionError`), it is not silently ignored. -/
theorem set_tempo_no_validation (s : SeqState) (b : ℤ) (hb : b ≠ 0) :
    set_tempo s b = some { s with bpm := b, beat_duration := 60 / (b : ℚ) / 4 } ∧
    set_tempo s 0 = none := by
  exact ⟨set_tempo_eq s b hb, by simp [set_tempo]⟩

/-- Witness for `set_tempo_no_validation` at `s = initState`, `b = 500`. -/
theorem set_tempo_no_validation_witness :
    set_tempo initState 500 =
      some { initState with bpm := 500, beat_duration := 60 / ((500 : ℤ) : ℚ) / 4 } ∧
    set_tempo initState 0 = none :=
  set_tempo_no_validation initState 500 (by decide)

/-- C2: for every BPM `b` accepted in [60,200], `set_tempo` computes
`beat_duration = 60/b/4` exactly (one sixteenth note), and the startup default
is `bpm = 145` with `beat_duration = 60/145/4`. -/
theorem beat_duration_sixteenth (b : ℤ) (h60 : 60 ≤ b) (h200 : b ≤ 200) :
    (∀ s : SeqState, ∃ s', set_tempo s b = some s' ∧ s'.beat_duration = 60 / (b : ℚ) / 4) ∧
    initState.bpm = 145 ∧ initState.beat_duration = 60 / 145 / 4 := by
  have hb : b ≠ 0 := by omega
  exact ⟨fun s => ⟨_, set_tempo_eq s b hb, rfl⟩, rfl, rfl⟩

/-- Witness for `beat_duration_sixteenth` at `b = 145`. -/
theorem beat_duration_sixteenth_witness :
    (∀ s : SeqState, ∃ s', set_tempo s 145 = some s' ∧
      s'.beat_duration = 60 / ((145 : ℤ) : ℚ) / 4) ∧
    initState.bpm = 145 ∧ initState.beat_duration = 60 / 145 / 4 :=
  beat_duration_sixteenth 145 (by decide) (by decide)

/-- C3: `current_step` stays in [0,16): every state reachable from startup by
any sequence of operations has `current_step < 16`; a tick of the running loop
advances it to `(current_step + 1) % 16`; and from pressing play at startup,
`n` loop iterations leave the cursor exactly at `n % 16`, so it cycles through
0,1,...,15,0,1,... -/
theorem current_step_cycles :
    (∀ (ops : List SeqOp) (s' : SeqState), run initState ops = some s' →
      s'.current_step < 16) ∧
    (∀ s : SeqState, s.is_playing = true →
      (tick s).current_step = (s.current_step + 1) % 16) ∧
    (∀ n : ℕ, (run_ticks n (toggle_playback initState)).current_step = n % 16) := by
  refine ⟨?_, tick_step_of_playing, ?_⟩
  · intro ops s' h
    exact run_preserves (fun s => s.current_step < 16) apply_op_step_lt ops initState s'
      (by decide) h
  · intro n
    have h := run_ticks_playing n (toggle_playback initState) rfl (by decide)
    rw [show (toggle_playback initState).current_step = 0 from rfl, Nat.zero_add] at h
    exact h

/-- Witness for `current_step_cycles`: a concrete run (play, two ticks) lands
on step 2 < 16, and the tick equation holds at the started state. -/
theorem current_step_cycles_witness :
    (tick (tick (toggle_playback initState))).current_step < 16 ∧
    (tick (toggle_playback initState)).current_step =
      ((toggle_playback initState).current_step + 1) % 16 :=
  ⟨current_step_cycles.1 [SeqOp.togglePlayback, SeqOp.tick, SeqOp.tick] _ rfl,
   current_step_cycles.2.1 (toggle_playback initState) rfl⟩

/-- C4: clearing the pattern from any state (Running or Stopped) resets
`current_step` to 0, makes every cell of every step and track false, and
leaves the play/stop flag unchanged. -/
theorem clear_pattern_resets (s : SeqState) :
    (clear_pattern s).current_step = 0 ∧
    (∀ row ∈ (clear_pattern s).pattern, ∀ b ∈ row, b = false) ∧
    (clear_pattern s).is_playing = s.is_playing := by
  refine ⟨rfl, ?_, rfl⟩
  intro row hrow b hb
  simp only [clear_pattern, init_pattern, List.mem_replicate] at hrow
  rw [hrow.2] at hb
  exact (List.mem_replicate.mp hb).2

/-- Witness for `clear_pattern_resets` at a running state. -/
theorem clear_pattern_resets_witness :
    (clear_pattern (toggle_playback initState)).current_step = 0 ∧
    (∀ row ∈ (clear_pattern (toggle_playback initState)).pattern, ∀ b ∈ row, b = false) ∧
    (clear_pattern (toggle_playback initState)).is_playing =
      (toggle_playback initState).is_playing :=
  clear_pattern_resets (toggle_playback initState)

/-- C6: for every master volume `v` in [0,1] and every track with a loaded
sound, the effective volume handed to the audio sink is
`min(v^2 * gain, 1.0)` with the configured gain `1.5`; at `v = 0` it is 0 and
at `v = 1` it is `min(gain, 1.0)`. -/
theorem play_sound_volume_curve (v : ℚ) (h0 : 0 ≤ v) (h1 : v ≤ 1)
    (loaded : List String) (track_id : String) (ht : track_id ∈ loaded) :
    play_sound loaded track_id v = some (min (v ^ 2 * volume_gain) 1) ∧
    play_sound loaded track_id 0 = some 0 ∧
    play_sound loaded track_id 1 = some (min volume_gain 1) := by
  refine ⟨by simp [play_sound, ht], ?_, ?_⟩
  · simp only [play_sound, ht, if_pos]
    norm_num [volume_gain]
  · simp only [play_sound, ht, if_pos, one_pow, one_mul]

/-- Witness for `play_sound_volume_curve` at `v = 1/2` with a loaded track. -/
theorem play_sound_volume_curve_witness :
    play_sound ["kick"] "kick" (1/2) = some (min ((1/2 : ℚ) ^ 2 * volume_gain) 1) ∧
    play_sound ["kick"] "kick" 0 = some 0 ∧
    play_sound ["kick"] "kick" 1 = some (min volume_gain 1) :=
  play_sound_volume_curve (1/2) (by norm_num) (by norm_num) ["kick"] "kick"
    (List.mem_singleton.mpr rfl)

/-- C10: `set_volume` clamps every input to [0,1] via `max(0, min(1, v))`, and
consequently the stored master volume is in [0,1] in every state reachable
from startup by any sequence of operations. -/
theorem set_volume_clamps :
    (∀ (s : SeqState) (v : ℚ), (set_volume s v).master_volume = max 0 (min 1 v)) ∧
    (∀ (ops : List SeqOp) (s' : SeqState), run initState ops = some s' →
      0 ≤ s'.master_volume ∧ s'.master_volume ≤ 1) := by
  refine ⟨fun s v => rfl, ?_⟩
  intro ops s' h
  exact run_preserves (fun s => 0 ≤ s.master_volume ∧ s.master_volume ≤ 1)
    apply_op_volume_unit ops initState s' (by norm_num [initState]) h

/-- Witness for `set_volume_clamps`: an out-of-range request `v = 5/2` is
clamped, and a concrete run ends with the master volume inside [0,1]. -/
theorem set_volume_clamps_witness :
    (set_volume initState (5/2)).master_volume = max 0 (min 1 (5/2)) ∧
    (0 ≤ (set_volume initState (5/2)).master_volume ∧
      (set_volume initState (5/2)).master_volume ≤ 1) :=
  ⟨set_volume_clamps.1 initState (5/2),
   set_volume_clamps.2 [SeqOp.setVolume (5/2)] _ rfl⟩

theorem pyIdx_lt (n : ℕ) (i : ℤ) (j : ℕ) (h : pyIdx n i = some j) : j < n := by
  unfold pyIdx at h
  split at h
  · rename_i h1
    simp only [Option.some.injEq] at h
    omega
  · split at h
    · rename_i h2
      simp only [Option.some.injEq] at h
      omega
    · exact absurd h (by simp)

theorem pyIdx_of_nonneg (n : ℕ) (i : ℤ) (h0 : 0 ≤ i) (hn : i < (n : ℤ)) :
    pyIdx n i = some i.toNat := by
  unfold pyIdx
  rw [if_pos ⟨h0, hn⟩]

theorem pyIdx_of_neg (n : ℕ) (i : ℤ) (h0 : -(n : ℤ) ≤ i) (hn : i < 0) :
    pyIdx n i = some (i + n).toNat := by
  unfold pyIdx
  rw [if_neg (by omega), if_pos ⟨h0, hn⟩]

theorem pyIdx_eq_none (n : ℕ) (i : ℤ) (h : (n : ℤ) ≤ i ∨ i < -(n : ℤ)) : pyIdx n i = none := by
  unfold pyIdx
  rw [if_neg (by omega), if_neg (by omega)]

theorem toggle_step_spec (p : Grid) (hp : p.length = 16)
    (hrows : ∀ row ∈ p, row.length = 8) (track step : ℤ) (si ti : ℕ)
    (hsi : pyIdx 16 step = some si) (hti : pyIdx 8 track = some ti) :
    ∃ p', toggle_step p track step = some p' ∧
      cell p' si ti = !cell p si ti ∧
      ∀ s t : ℕ, ¬(s = si ∧ t = ti) → cell p' s t = cell p s t := by
  have hsi16 : si < 16 := pyIdx_lt 16 step si hsi
  have hsilen : si < p.length := by omega
  have hrowget : p[si]? = some p[si] := List.getElem?_eq_getElem hsilen
  have hrowlen : p[si].length = 8 := hrows _ (List.getElem_mem hsilen)
  have hti8 : ti < 8 := pyIdx_lt 8 track ti hti
  have htilen : ti < p[si].length := by omega
  have hbget : p[si][ti]? = some p[si][ti] := List.getElem?_eq_getElem htilen
  refine ⟨p.set si (p[si].set ti (!p[si][ti])), ?_, ?_, ?_⟩
  · unfold toggle_step
    rw [hp, hsi]
    dsimp only
    rw [hrowget]
    dsimp only
    rw [hrowlen, hti]
    dsimp only
    rw [hbget]
  · unfold cell
    rw [List.getElem?_set_self (by omega), List.getElem?_eq_getElem hsilen]
    simp only [Option.getD_some]
    rw [List.getElem?_set_self (by omega), hbget]
    rfl
  · intro s t hst
    unfold cell
    rcases eq_or_ne s si with rfl | hne
    · have htne : t ≠ ti := fun h => hst ⟨rfl, h⟩
      rw [List.getElem?_set_self (by omega), List.getElem?_eq_getElem hsilen]
      simp only [Option.getD_some]
      rw [List.getElem?_set_ne (fun h => htne h.symm)]
    · rw [List.getElem?_set_ne (fun h => hne h.symm)]

theorem toggle_step_oob (p : Grid) (hp : p.length = 16)
    (hrows : ∀ row ∈ p, row.length = 8) (track step : ℤ)
    (h : 16 ≤ step ∨ step < -16 ∨ 8 ≤ track ∨ track < -8) :
    toggle_step p track step = none := by
  rcases h with h | h | h | h
  · unfold toggle_step
    rw [hp, pyIdx_eq_none 16 step (by omega)]
  · unfold toggle_step
    rw [hp, pyIdx_eq_none 16 step (by omega)]
  all_goals
    unfold toggle_step
    rw [hp]
    rcases h16 : pyIdx 16 step with _ | si
    · rfl
    · dsimp only
      rcases hrow : p[si]? with _ | row
      · rfl
      · have hrl : row.length = 8 := hrows row (List.getElem?_mem hrow)
        dsimp only
        rw [hrl, pyIdx_eq_none 8 track (by omega)]

/-- C8 (amended): `toggle_step` has no explicit bounds check, so Python list
indexing decides: indices with `step` in [-16,16) and `track` in [-8,8) are
accepted (negative values wrap around), and in particular in-range indices
flip exactly the addressed cell and leave every other cell unchanged; indices
beyond the wraparound range raise `IndexError` (modelled `none`), leaving the
grid unchanged. -/
theorem toggle_step_bounds (p : Grid) (hp : p.length = 16)
    (hrows : ∀ row ∈ p, row.length = 8) (track step : ℤ) :
    (16 ≤ step ∨ step < -16 ∨ 8 ≤ track ∨ track < -8 →
      toggle_step p track step = none) ∧
    (0 ≤ step → step < 16 → 0 ≤ track → track < 8 →
      ∃ p', toggle_step p track step = some p' ∧
        cell p' step.toNat track.toNat = !cell p step.toNat track.toNat ∧
        ∀ s t : ℕ, ¬(s = step.toNat ∧ t = track.toNat) → cell p' s t = cell p s t) := by
  refine ⟨toggle_step_oob p hp hrows track step, ?_⟩
  intro h1 h2 h3 h4
  exact toggle_step_spec p hp hrows track step step.toNat track.toNat
    (pyIdx_of_nonneg 16 step h1 h2) (pyIdx_of_nonneg 8 track h3 h4)

/-- Witness for `toggle_step_bounds` on the startup grid: `step = 16` is
rejected, and the in-range toggle at `(step, track) = (0, 0)` flips that cell. -/
theorem toggle_step_bounds_witness :
    ((16 : ℤ) ≤ 16 ∨ (16 : ℤ) < -16 ∨ (8 : ℤ) ≤ 0 ∨ (0 : ℤ) < -8 →
      toggle_step init_pattern 0 16 = none) ∧
    ((0 : ℤ) ≤ 16 → (16 : ℤ) < 16 → (0 : ℤ) ≤ 0 → (0 : ℤ) < 8 →
      ∃ p', toggle_step init_pattern 0 16 = some p' ∧
        cell p' (16 : ℤ).toNat (0 : ℤ).toNat = !cell init_pattern (16 : ℤ).toNat (0 : ℤ).toNat ∧
        ∀ s t : ℕ, ¬(s = (16 : ℤ).toNat ∧ t = (0 : ℤ).toNat) →
          cell p' s t = cell init_pattern s t) :=
  toggle_step_bounds init_pattern (by decide) (by decide) 0 16

/-- C8 counterexample: the out-of-range index `step = -1` is NOT rejected:
`toggle_step` succeeds and flips the cell at step 15 (Python negative-index
wraparound), so the grid does not stay unchanged. -/
theorem toggle_step_negative_index_cex :
    toggle_step init_pattern 0 (-1) =
      some (init_pattern.set 15 ((List.replicate 8 false).set 0 true)) ∧
    cell (init_pattern.set 15 ((List.replicate 8 false).set 0 true)) 15 0 = true ∧
    init_pattern.set 15 ((List.replicate 8 false).set 0 true) ≠ init_pattern := by
  decide

/-- The value handed back by `UIManager.get_pattern`: either the pattern list
object itself (a live reference into the UI manager's mutable state) or an
immutable copy of the grid taken at call time. -/
inductive PatternSnapshot where
  | liveRef
  | copy (g : Grid)
deriving DecidableEq, Repr

/-- Source `UIManager.get_pattern`: `return self.pattern`.  The method returns the
pattern list object itself — a live reference, not a copy (a copy would be
`PatternSnapshot.copy pattern`).  `toggle_step` mutates that same object in
place, so later reads through the returned value observe the mutation. -/
def get_pattern (pattern : Grid) : PatternSnapshot := PatternSnapshot.liveRef

/-- Reading a cell through a snapshot at a moment when the pattern object
holds `current`: a live reference observes `current`; a copy observes the
grid recorded at snapshot time. -/
def snapshot_read (sn : PatternSnapshot) (current : Grid) (step track : ℕ) : Bool :=
  match sn with
  | .liveRef => cell current step track
  | .copy g => cell g step track

/-- C7 counterexample: the snapshot returned by `get_pattern` on the startup
grid is NOT an immutable copy: after toggling cell (0,0), reading (0,0)
through the earlier snapshot yields `true` even though the cell was `false`
when the snapshot was taken. -/
theorem get_pattern_alias_cex :
    toggle_step init_pattern 0 0 =
      some (init_pattern.set 0 ((List.replicate 8 false).set 0 true)) ∧
    cell init_pattern 0 0 = false ∧
    snapshot_read (get_pattern init_pattern)
      (init_pattern.set 0 ((List.replicate 8 false).set 0 true)) 0 0 = true := by
  decide

/-- C7 (amended): `get_pattern` hands out a live reference to the mutable
grid: for every in-range toggle performed after the snapshot is taken, the
flag observed through the snapshot equals the toggled (current) value — the
negation of the flag at snapshot time — so mutations are visible through the
snapshot. -/
theorem get_pattern_is_live_reference (p : Grid) (hp : p.length = 16)
    (hrows : ∀ row ∈ p, row.length = 8) (track step : ℤ)
    (h0 : 0 ≤ step) (h16 : step < 16) (ht0 : 0 ≤ track) (ht8 : track < 8) :
    ∃ p', toggle_step p track step = some p' ∧
      snapshot_read (get_pattern p) p' step.toNat track.toNat =
        !cell p step.toNat track.toNat := by
  obtain ⟨p', hp', hflip, -⟩ := toggle_step_spec p hp hrows track step step.toNat track.toNat
    (pyIdx_of_nonneg 16 step h0 h16) (pyIdx_of_nonneg 8 track ht0 ht8)
  exact ⟨p', hp', hflip⟩

/-- Witness for `get_pattern_is_live_reference` on the startup grid at
`(step, track) = (0, 0)`. -/
theorem get_pattern_is_live_reference_witness :
    ∃ p', toggle_step init_pattern 0 0 = some p' ∧
      snapshot_read (get_pattern init_pattern) p' (0 : ℤ).toNat (0 : ℤ).toNat =
        !cell init_pattern (0 : ℤ).toNat (0 : ℤ).toNat :=
  get_pattern_is_live_reference init_pattern (by decide) (by decide) 0 0
    (by decide) (by decide) (by decide) (by decide)

/-- Truncation toward zero, as performed by numpy's float-to-integer `astype`
conversion. -/
def trunc_toward_zero (q : ℚ) : ℤ := if 0 ≤ q then ⌊q⌋ else ⌈q⌉

/-- Source `AudioManager.load_sound_data`:
`sound_data = (sound_data * 32767).astype(np.int16)` for one sample.
`astype(np.int16)` truncates the float toward zero and keeps the low 16 bits
of the resulting integer (numpy's observed conversion wraps out-of-range
values modulo 2^16 into [-32768, 32767]); there is no rounding and no
clamping. -/
def int16_of_sample (q : ℚ) : ℤ :=
  (trunc_toward_zero (q * 32767) + 32768) % 65536 - 32768

/-- The quantization the spec describes at the core/sink boundary, stated for
comparison from the spec's words: `round(sample * 32767)`, clamped to the
`int16` range. -/
def quantize_spec_round_clamp (q : ℚ) : ℤ :=
  max (-32768) (min 32767 (round (q * 32767)))

/-- C9 counterexample: at the in-range sample `0.7` the code's conversion
truncates `0.7 * 32767 = 22936.9` to `22936`, while the claimed
round-then-clamp quantizer yields `22937`. -/
theorem int16_truncates_not_rounds_cex :
    int16_of_sample (7/10) = 22936 ∧ quantize_spec_round_clamp (7/10) = 22937 ∧
    int16_of_sample (7/10) ≠ quantize_spec_round_clamp (7/10) := by
  have hfloor : ⌊(7/10 : ℚ) * 32767⌋ = 22936 := by
    rw [Int.floor_eq_iff]
    norm_num
  have hround : round ((7/10 : ℚ) * 32767) = 22937 := by
    rw [round_eq, Int.floor_eq_iff]
    norm_num
  refine ⟨?_, ?_, ?_⟩
  · rw [int16_of_sample, trunc_toward_zero, if_pos (by norm_num), hfloor]
    decide
  · rw [quantize_spec_round_clamp, hround]
    decide
  · rw [int16_of_sample, trunc_toward_zero, if_pos (by norm_num), hfloor,
      quantize_spec_round_clamp, hround]
    decide

/-- C9 (amended): each sample is quantized by truncating `sample * 32767`
toward zero (not rounding) and reducing into `int16` without any clamping;
for samples in [-1,1] the result lies in [-32767, 32767] and no wraparound
occurs, but nothing protects samples of larger magnitude. -/
theorem int16_quantization (q : ℚ) (h1 : -1 ≤ q) (h2 : q ≤ 1) :
    int16_of_sample q = trunc_toward_zero (q * 32767) ∧
    -32767 ≤ int16_of_sample q ∧ int16_of_sample q ≤ 32767 := by
  have hb : -32767 ≤ trunc_toward_zero (q * 32767) ∧
      trunc_toward_zero (q * 32767) ≤ 32767 := by
    unfold trunc_toward_zero
    split
    · rename_i hq
      constructor
      · have h3 : (0 : ℤ) ≤ ⌊q * 32767⌋ := Int.floor_nonneg.mpr hq
        omega
      · have h3 : ⌊q * 32767⌋ ≤ ⌊(32767 : ℚ)⌋ := Int.floor_mono (by nlinarith)
        simpa using h3
    · rename_i hq
      push_neg at hq
      constructor
      · have h3 : ⌈(-32767 : ℚ)⌉ ≤ ⌈q * 32767⌉ := Int.ceil_mono (by nlinarith)
        simpa using h3
      · have h3 : ⌈q * 32767⌉ ≤ (0 : ℤ) := Int.ceil_le.mpr (by push_cast; nlinarith)
        omega
  have hmod : (trunc_toward_zero (q * 32767) + 32768) % 65536 =
      trunc_toward_zero (q * 32767) + 32768 :=
    Int.emod_eq_of_lt (by omega) (by omega)
  unfold int16_of_sample
  rw [hmod]
  exact ⟨by omega, by omega, by omega⟩

/-- Witness for `int16_quantization` at the sample `1/2`. -/
theorem int16_quantization_witness :
    int16_of_sample (1/2) = trunc_toward_zero ((1/2 : ℚ) * 32767) ∧
    -32767 ≤ int16_of_sample (1/2) ∧ int16_of_sample (1/2) ≤ 32767 :=
  int16_quantization (1/2) (by norm_num) (by norm_num)

noncomputable section

/-- Number of samples of the kick buffer:
`int(sample_rate * duration) = int(44100 * 0.3) = 13230` (the double-precision
product `44100 * 0.3` rounds to exactly `13230.0`). -/
def kick_len : ℕ := 13230

/-- The time axis of `PsytranceSequencer.generate_kick(44100)`:
`t = np.linspace(0, 0.3, 13230)`, whose `i`-th entry is `0.3 * i / 13229`
(`np.linspace` includes both endpoints). -/
def kick_time (i : ℕ) : ℝ := 3 / 10 * i / 13229

/-- Sample `i` of the buffer built by `PsytranceSequencer.generate_kick`:
`freq = 60 * np.exp(-t * 8)`; `kick = np.sin(2 * np.pi * freq * t)`;
`envelope = np.exp(-t * 15)`; `kick *= envelope`;
`click = np.exp(-t * 50) * np.sin(2 * np.pi * 2000 * t) * 0.5`;
`kick += click`; `return kick * 0.95`. -/
def generate_kick (i : ℕ) : ℝ :=
  (Real.sin (2 * Real.pi * (60 * Real.exp (-(kick_time i * 8))) * kick_time i) *
      Real.exp (-(kick_time i * 15)) +
    Real.exp (-(kick_time i * 50)) * Real.sin (2 * Real.pi * 2000 * kick_time i) * (1/2)) *
  (95/100)

end

/-- C5: the kick drum buffer violates the [-1,1] bound: its sample 182
(at `t = 0.3 * 182 / 13229 ≈ 0.00413 s`, where the frequency-swept sine and
the 2 kHz click transient peak together while both envelopes are still close
to 1) is strictly greater than 1 before quantization. -/
theorem generate_kick_exceeds_one : 1 < generate_kick 182 ∧ 182 < kick_len := by
  refine ⟨?_, by norm_num [kick_len]⟩
  have ht : kick_time 182 = 273 / 66145 := by
    norm_num [kick_time]
  unfold generate_kick
  rw [ht]
  have hπ1 : (3.141592 : ℝ) < Real.pi := Real.pi_gt_d6
  have hπ2 : Real.pi < 3.141593 := Real.pi_lt_d6
  have hE8l : (63961 / 66145 : ℝ) ≤ Real.exp (-(273 / 66145 * 8)) := by
    have h := Real.add_one_le_exp (-(273 / 66145 * 8) : ℝ)
    have h2 : (-(273 / 66145 * 8) : ℝ) + 1 = 63961 / 66145 := by norm_num
    linarith
  have hE8u : Real.exp (-(273 / 66145 * 8) : ℝ) ≤ 1 :=
    Real.exp_le_one_iff.mpr (by norm_num)
  have hE8pos : (0 : ℝ) < Real.exp (-(273 / 66145 * 8)) := Real.exp_pos _
  have hE15l : (62050 / 66145 : ℝ) ≤ Real.exp (-(273 / 66145 * 15)) := by
    have h := Real.add_one_le_exp (-(273 / 66145 * 15) : ℝ)
    have h2 : (-(273 / 66145 * 15) : ℝ) + 1 = 62050 / 66145 := by norm_num
    linarith
  have hE50l : (52495 / 66145 : ℝ) ≤ Real.exp (-(273 / 66145 * 50)) := by
    have h := Real.add_one_le_exp (-(273 / 66145 * 50) : ℝ)
    have h2 : (-(273 / 66145 * 50) : ℝ) + 1 = 52495 / 66145 := by norm_num
    linarith
  have hπE_l : (3.141592 : ℝ) * (63961 / 66145) ≤
      Real.pi * Real.exp (-(273 / 66145 * 8)) :=
    mul_le_mul hπ1.le hE8l (by norm_num) Real.pi_pos.le
  have hπE_u : Real.pi * Real.exp (-(273 / 66145 * 8)) ≤ (3.141593 : ℝ) * 1 :=
    mul_le_mul hπ2.le hE8u hE8pos.le (by norm_num)
  have hp1l : (1.504 : ℝ) ≤
      2 * Real.pi * (60 * Real.exp (-(273 / 66145 * 8))) * (273 / 66145) := by
    nlinarith [hπE_l]
  have hp1u : 2 * Real.pi * (60 * Real.exp (-(273 / 66145 * 8))) * (273 / 66145) ≤
      (1.556 : ℝ) := by
    nlinarith [hπE_u]
  have hsin1 : (0.9977 : ℝ) ≤
      Real.sin (2 * Real.pi * (60 * Real.exp (-(273 / 66145 * 8))) * (273 / 66145)) := by
    have hδu : Real.pi / 2 -
        2 * Real.pi * (60 * Real.exp (-(273 / 66145 * 8))) * (273 / 66145) ≤ 0.0668 := by
      linarith
    have hδl : (0 : ℝ) ≤ Real.pi / 2 -
        2 * Real.pi * (60 * Real.exp (-(273 / 66145 * 8))) * (273 / 66145) := by
      linarith
    have hsq : (Real.pi / 2 -
        2 * Real.pi * (60 * Real.exp (-(273 / 66145 * 8))) * (273 / 66145)) ^ 2 ≤
        (0.0668 : ℝ) ^ 2 :=
      pow_le_pow_left₀ hδl hδu 2
    have hcos : 1 - (Real.pi / 2 -
        2 * Real.pi * (60 * Real.exp (-(273 / 66145 * 8))) * (273 / 66145)) ^ 2 / 2 ≤
        Real.cos (Real.pi / 2 -
          2 * Real.pi * (60 * Real.exp (-(273 / 66145 * 8))) * (273 / 66145)) :=
      Real.one_sub_sq_div_two_le_cos
    rw [Real.cos_pi_div_two_sub] at hcos
    nlinarith [hsq, hcos]
  have hsin2 : (0.9995 : ℝ) ≤ Real.sin (2 * Real.pi * 2000 * (273 / 66145)) := by
    have hrw : 2 * Real.pi * 2000 * (273 / 66145 : ℝ) =
        (Real.pi / 2 - -(Real.pi * (1215 / 132290))) + (8 : ℤ) * (2 * Real.pi) := by
      push_cast
      ring
    rw [hrw, Real.sin_add_int_mul_two_pi, Real.sin_pi_div_two_sub, Real.cos_neg]
    have hwl : (0 : ℝ) ≤ Real.pi * (1215 / 132290) := by positivity
    have hwu : Real.pi * (1215 / 132290 : ℝ) ≤ 0.02886 := by nlinarith [hπ2]
    have hsq : (Real.pi * (1215 / 132290 : ℝ)) ^ 2 ≤ (0.02886 : ℝ) ^ 2 :=
      pow_le_pow_left₀ hwl hwu 2
    have hcos : 1 - (Real.pi * (1215 / 132290 : ℝ)) ^ 2 / 2 ≤
        Real.cos (Real.pi * (1215 / 132290)) :=
      Real.one_sub_sq_div_two_le_cos
    nlinarith [hsq, hcos]
  have hS1pos : (0 : ℝ) ≤
      Real.sin (2 * Real.pi * (60 * Real.exp (-(273 / 66145 * 8))) * (273 / 66145)) := by
    linarith
  have hE15pos : (0 : ℝ) ≤ Real.exp (-(273 / 66145 * 15)) := (Real.exp_pos _).le
  have hE50pos : (0 : ℝ) ≤ Real.exp (-(273 / 66145 * 50)) := (Real.exp_pos _).le
  have ht1 : (0.9977 : ℝ) * (62050 / 66145) ≤
      Real.sin (2 * Real.pi * (60 * Real.exp (-(273 / 66145 * 8))) * (273 / 66145)) *
        Real.exp (-(273 / 66145 * 15)) :=
    mul_le_mul hsin1 hE15l (by norm_num) hS1pos
  have ht2 : (52495 / 66145 : ℝ) * 0.9995 ≤
      Real.exp (-(273 / 66145 * 50)) * Real.sin (2 * Real.pi * 2000 * (273 / 66145)) :=
    mul_le_mul hE50l hsin2 (by norm_num) hE50pos
  nlinarith [ht1, ht2]
